import Mathlib

/-!
Verification of the globalise-tools text-extraction and annotation pipeline.

This file gives a shallow embedding, in Lean 4, of the parts of
scripts/globalise-extract-text.py and scripts/gt-xmi-to-wa.py that the
specification talks about, and proves (or refutes) the specified properties
against that embedding.

Modelling conventions used throughout:
  - Python str values are modelled as Lean String where only equality and
    concatenation matter, and as List Char where slicing or code-point
    lexicographic comparison matters (Python compares strings by code point,
    which on List Char is exactly the Mathlib order given by List.Lex on
    Char, written with the < notation below).
  - Python int is modelled as Int where negative values occur (token
    sentinel offsets, zero-padded number formatting) and as Nat where the
    code maintains nonnegativity (annotation offsets and lengths; the spec
    states the invariant offset >= 0 and length >= 0).
  - Diagnostic printing (ic, logger) is a side effect with no influence on
    the returned data; the embedding keeps only the returned data.
-/

/-- Token record of globalise-extract-text.py (dataclass GTToken): a real
token carries its character offset, a paragraph-boundary sentinel carries
offset -1. -/
structure GTToken where
  text : String
  text_with_ws : String
  offset : Int
deriving DecidableEq, Repr

/-- Loop body of segment_range (globalise-extract-text.py lines 581-591).
The Python function iterates over the enumerated token list keeping two
mutable indices begin_idx and end_idx (both starting at 0) and breaks at the
first real token whose offset is at least char_range_end; this is the same
loop written as structural recursion, with i the current enumeration index
and bi, ei the current values of begin_idx and end_idx. -/
def segmentRangeLoop (char_range_begin char_range_end : Int) :
    List GTToken → Nat → Nat → Nat → Nat × Nat
  | [], _, bi, ei => (bi, ei)
  | token :: rest, i, bi, ei =>
    if -1 < token.offset ∧ token.offset < char_range_end then
      segmentRangeLoop char_range_begin char_range_end rest (i + 1)
        (if -1 < token.offset ∧ token.offset ≤ char_range_begin then i else bi) i
    else if -1 < token.offset then
      ((if -1 < token.offset ∧ token.offset ≤ char_range_begin then i else bi), ei)
    else
      segmentRangeLoop char_range_begin char_range_end rest (i + 1)
        (if -1 < token.offset ∧ token.offset ≤ char_range_begin then i else bi) ei

/-- segment_range of globalise-extract-text.py (lines 581-591). -/
def segment_range (tokens : List GTToken) (char_range_begin char_range_end : Int) :
    Nat × Nat :=
  segmentRangeLoop char_range_begin char_range_end tokens 0 0 0

/-- Predicate of the tokens at which the scan of segment_range stops: a real
token (offset above -1) whose offset reaches or exceeds the range end. -/
def stopPred (char_range_end : Int) (t : GTToken) : Bool :=
  decide (-1 < t.offset) && decide (char_range_end ≤ t.offset)

/-- Index of the first token at which the scan of segment_range stops
(length of the list when it never stops). -/
def scanStop (tokens : List GTToken) (char_range_end : Int) : Nat :=
  tokens.findIdx (stopPred char_range_end)

/-- Predicate defining begin_idx: a real token whose offset is at most the
range begin. -/
def beginPred (char_range_begin : Int) (t : GTToken) : Bool :=
  decide (-1 < t.offset) && decide (t.offset ≤ char_range_begin)

/-- Predicate defining end_idx: a real token whose offset is strictly below
the range end. -/
def endPred (char_range_end : Int) (t : GTToken) : Bool :=
  decide (-1 < t.offset) && decide (t.offset < char_range_end)

/-- Helper for lastIdxOr0: scan the list keeping the index of the most
recent element satisfying p, starting from enumeration index i with current
value acc. -/
def lastIdxFrom (p : GTToken → Bool) : List GTToken → Nat → Nat → Nat
  | [], _, acc => acc
  | t :: ts, i, acc => lastIdxFrom p ts (i + 1) (if p t then i else acc)

/-- Index of the last element of the list satisfying p, or 0 when no element
satisfies p. -/
def lastIdxOr0 (p : GTToken → Bool) (l : List GTToken) : Nat :=
  lastIdxFrom p l 0 0

theorem segmentRangeLoop_eq (b e : Int) :
    ∀ (l : List GTToken) (i bi ei : Nat),
      segmentRangeLoop b e l i bi ei =
        (lastIdxFrom (beginPred b) (l.take (scanStop l e + 1)) i bi,
         lastIdxFrom (endPred e) (l.take (scanStop l e)) i ei) := by
  intro l
  induction l with
  | nil => intro i bi ei; simp [segmentRangeLoop, scanStop, lastIdxFrom]
  | cons t ts ih =>
    intro i bi ei
    by_cases hr : (-1 : Int) < t.offset
    · by_cases he : t.offset < e
      · have hstop : stopPred e t = false := by simp [stopPred] <;> omega
        have hend : endPred e t = true := by simp [endPred] <;> omega
        have hscan : scanStop (t :: ts) e = scanStop ts e + 1 := by
          simp [scanStop, List.findIdx_cons, hstop]
        rw [segmentRangeLoop, if_pos ⟨hr, he⟩, ih, hscan, List.take_succ_cons,
          List.take_succ_cons]
        by_cases hb : t.offset ≤ b
        · have hbp : beginPred b t = true := by simp [beginPred] <;> omega
          simp [lastIdxFrom, hbp, hend, hr, hb]
        · have hbp : beginPred b t = false := by simp [beginPred] <;> omega
          simp [lastIdxFrom, hbp, hend, hr, hb]
      · have hstop : stopPred e t = true := by simp [stopPred] <;> omega
        have hend : endPred e t = false := by simp [endPred] <;> omega
        have hscan : scanStop (t :: ts) e = 0 := by
          simp [scanStop, List.findIdx_cons, hstop]
        rw [segmentRangeLoop, if_neg (fun h => he h.2), if_pos hr, hscan]
        by_cases hb : t.offset ≤ b
        · have hbp : beginPred b t = true := by simp [beginPred] <;> omega
          simp [lastIdxFrom, List.take_succ_cons, hbp, hr, hb]
        · have hbp : beginPred b t = false := by simp [beginPred] <;> omega
          simp [lastIdxFrom, List.take_succ_cons, hbp, hr, hb]
    · have hstop : stopPred e t = false := by simp [stopPred] <;> omega
      have hbegin : beginPred b t = false := by simp [beginPred] <;> omega
      have hend : endPred e t = false := by simp [endPred] <;> omega
      have hscan : scanStop (t :: ts) e = scanStop ts e + 1 := by
        simp [scanStop, List.findIdx_cons, hstop]
      rw [segmentRangeLoop, if_neg (fun h => hr h.1), if_neg hr, ih, hscan,
        List.take_succ_cons, List.take_succ_cons]
      simp [lastIdxFrom, hbegin, hend, hr]

/-- Characterization of segment_range used by several results below:
begin_idx is the index of the last real token with offset at most
char_range_begin among the tokens scanned (the scan includes the stop token
itself for the begin test), end_idx is the index of the last real token with
offset strictly below char_range_end among the tokens strictly before the
stop, both defaulting to 0. -/
theorem segment_range_eq (tokens : List GTToken) (b e : Int) :
    segment_range tokens b e =
      (lastIdxOr0 (beginPred b) (tokens.take (scanStop tokens e + 1)),
       lastIdxOr0 (endPred e) (tokens.take (scanStop tokens e))) := by
  unfold segment_range lastIdxOr0
  exact segmentRangeLoop_eq b e tokens 0 0 0

/-- Token sequence of end-to-end scenario 2 of the spec: tokenizing the
paragraph "Go home.\n" yields tokens at offsets 0, 3, 7 followed by one
paragraph sentinel of offset -1. -/
def goHomeTokens : List GTToken :=
  [{ text := "Go", text_with_ws := "Go ", offset := 0 },
   { text := "home", text_with_ws := "home", offset := 3 },
   { text := ".", text_with_ws := ".\n", offset := 7 },
   { text := "", text_with_ws := "", offset := -1 }]

/-- C1: segment_range scans the token sequence once in order, skipping
sentinel tokens; begin_idx is the index of the last real token whose offset
is at most the range begin, end_idx the index of the last real token whose
offset is strictly below the range end, and the scan stops at the first real
token whose offset reaches or exceeds the range end (scanStop); in
particular on tokens at offsets 0, 3, 7 plus one sentinel, the call
segment_range tokens 0 8 returns (0, 2). -/
theorem C1_segment_range_scan :
    (∀ (tokens : List GTToken) (b e : Int),
      segment_range tokens b e =
        (lastIdxOr0 (beginPred b) (tokens.take (scanStop tokens e + 1)),
         lastIdxOr0 (endPred e) (tokens.take (scanStop tokens e)))) ∧
    segment_range goHomeTokens 0 8 = (0, 2) := by
  constructor
  · exact segment_range_eq
  · rfl

theorem lastIdxFrom_le (p : GTToken → Bool) :
    ∀ (l : List GTToken) (i acc m : Nat), acc ≤ m →
      (∀ j (h : j < l.length), p (l.get ⟨j, h⟩) = true → i + j ≤ m) →
      lastIdxFrom p l i acc ≤ m := by
  intro l
  induction l with
  | nil => intro i acc m hacc _; exact hacc
  | cons t ts ih =>
    intro i acc m hacc hall
    rw [lastIdxFrom]
    apply ih
    · by_cases hp : p t = true
      · rw [if_pos hp]
        simpa using hall 0 (by simp) hp
      · rw [if_neg hp]; exact hacc
    · intro j hj hpj
      have := hall (j + 1) (by simpa using hj) hpj
      omega

theorem lastIdxFrom_acc_le (p : GTToken → Bool) :
    ∀ (l : List GTToken) (i acc : Nat), acc ≤ i →
      acc ≤ lastIdxFrom p l i acc := by
  intro l
  induction l with
  | nil => intro i acc _; exact Nat.le_refl acc
  | cons t ts ih =>
    intro i acc hacc
    rw [lastIdxFrom]
    by_cases hp : p t = true
    · rw [if_pos hp]
      exact Nat.le_trans hacc (ih (i + 1) i (by omega))
    · rw [if_neg hp]
      exact ih (i + 1) acc (by omega)

theorem lastIdxFrom_ge (p : GTToken → Bool) :
    ∀ (l : List GTToken) (i acc : Nat), acc ≤ i →
      ∀ j (h : j < l.length), p (l.get ⟨j, h⟩) = true →
      i + j ≤ lastIdxFrom p l i acc := by
  intro l
  induction l with
  | nil => intro i acc _ j h; simp at h
  | cons t ts ih =>
    intro i acc hacc j hj hpj
    rw [lastIdxFrom]
    match j with
    | 0 =>
      have hp : p t = true := hpj
      rw [if_pos hp]
      simpa using lastIdxFrom_acc_le p ts (i + 1) i (by omega)
    | j' + 1 =>
      have hpj' : p (ts.get ⟨j', by simpa using hj⟩) = true := hpj
      have := ih (i + 1) (if p t then i else acc)
        (by by_cases hp : p t = true <;> simp [hp] <;> omega) j'
        (by simpa using hj) hpj'
      omega

theorem lastIdxOr0_le (p : GTToken → Bool) (l : List GTToken) (m : Nat)
    (hall : ∀ j (h : j < l.length), p (l.get ⟨j, h⟩) = true → j ≤ m) :
    lastIdxOr0 p l ≤ m := by
  apply lastIdxFrom_le p l 0 0 m (Nat.zero_le m)
  intro j h hp
  simpa using hall j h hp

theorem lastIdxOr0_ge (p : GTToken → Bool) (l : List GTToken)
    (j : Nat) (h : j < l.length) (hp : p (l.get ⟨j, h⟩) = true) :
    j ≤ lastIdxOr0 p l := by
  simpa using lastIdxFrom_ge p l 0 0 (Nat.le_refl 0) j h hp

theorem findIdx_false_of_lt (p : GTToken → Bool) :
    ∀ (l : List GTToken) (j : Nat) (h : j < l.length),
      j < l.findIdx p → p (l.get ⟨j, h⟩) = false := by
  intro l
  induction l with
  | nil => intro j h; simp at h
  | cons t ts ih =>
    intro j h hlt
    by_cases hp : p t = true
    · rw [List.findIdx_cons, hp] at hlt; simp at hlt
    · match j with
      | 0 => simpa using hp
      | j' + 1 =>
        rw [List.findIdx_cons] at hlt
        simp only [hp, cond_false] at hlt
        exact ih j' (by simpa using h) (by omega)

theorem findIdx_true_at (p : GTToken → Bool) :
    ∀ (l : List GTToken) (h : l.findIdx p < l.length),
      p (l.get ⟨l.findIdx p, h⟩) = true := by
  intro l
  induction l with
  | nil => intro h; simp at h
  | cons t ts ih =>
    intro h
    by_cases hp : p t = true
    · simpa [List.findIdx_cons, hp] using hp
    · have hcons : (t :: ts).findIdx p = ts.findIdx p + 1 := by
        simp [List.findIdx_cons, hp]
      have h2 : ts.findIdx p < ts.length := by
        rw [hcons] at h; simpa using h
      have hfin : (⟨(t :: ts).findIdx p, h⟩ : Fin (t :: ts).length) =
          ⟨ts.findIdx p + 1, by simpa using h2⟩ := by
        apply Fin.ext; simp [hcons]
      rw [hfin]
      exact ih h2

theorem findIdx_mono (p q : GTToken → Bool) (himp : ∀ t, q t = true → p t = true) :
    ∀ (l : List GTToken), l.findIdx p ≤ l.findIdx q := by
  intro l
  induction l with
  | nil => simp
  | cons t ts ih =>
    by_cases hq : q t = true
    · simp [List.findIdx_cons, himp t hq, hq]
    · by_cases hp : p t = true
      · simp [List.findIdx_cons, hp]
      · simp only [List.findIdx_cons, hp, hq, cond_false]
        omega

/-- Unsorted token list on which monotonicity of segment_range fails: the
token at index 0 has offset 5, the token at index 1 has offset 0. -/
def unsortedTokens : List GTToken :=
  [{ text := "x", text_with_ws := "x ", offset := 5 },
   { text := "y", text_with_ws := "y", offset := 0 }]

/-- C4, counterexample to the claim as stated: for arbitrary token lists
(the claim quantifies over every token list) the range (0, 1) is a subset of
the range (0, 10), yet on unsortedTokens the anchor range returned for the
small range, (0, 0), is not contained in the anchor range returned for the
enclosing range, (1, 1): containment of the begin anchor fails. -/
theorem C4_counterexample :
    (0 : Int) ≤ 0 ∧ (1 : Int) ≤ 10 ∧
    segment_range unsortedTokens 0 1 = (0, 0) ∧
    segment_range unsortedTokens 0 10 = (1, 1) ∧
    ¬ ((segment_range unsortedTokens 0 10).1 ≤ (segment_range unsortedTokens 0 1).1 ∧
       (segment_range unsortedTokens 0 1).2 ≤ (segment_range unsortedTokens 0 10).2) := by
  refine ⟨by norm_num, by norm_num, rfl, rfl, ?_⟩
  intro h
  exact absurd h.1 (by decide)

/-- C4, amended: on token lists whose real tokens appear in strictly
increasing offset order (which holds for every token sequence the tokenizer
produces, sentinels of offset -1 interspersed), segment_range is monotonic:
if the character range from a1 to a2 is a subset of the range from b1 to b2,
the anchor range of the former is contained in the anchor range of the
latter. -/
theorem C4_segment_range_monotonic (tokens : List GTToken) (a1 a2 b1 b2 : Int)
    (hsorted : List.Pairwise
      (fun t u => -1 < t.offset → -1 < u.offset → t.offset < u.offset) tokens)
    (hba : b1 ≤ a1) (haa : a1 ≤ a2) (hab : a2 ≤ b2) :
    (segment_range tokens b1 b2).1 ≤ (segment_range tokens a1 a2).1 ∧
    (segment_range tokens a1 a2).2 ≤ (segment_range tokens b1 b2).2 := by
  have hmono := List.pairwise_iff_get.mp hsorted
  rw [segment_range_eq tokens a1 a2, segment_range_eq tokens b1 b2]
  have hstopimp : ∀ t, stopPred b2 t = true → stopPred a2 t = true := by
    intro t ht
    simp only [stopPred, Bool.and_eq_true, decide_eq_true_eq] at ht ⊢
    omega
  have hstople : scanStop tokens a2 ≤ scanStop tokens b2 :=
    findIdx_mono _ _ hstopimp tokens
  constructor
  · -- begin anchors: the enclosing range produces the smaller or equal index
    apply lastIdxOr0_le
    intro j hj hpj
    have hjlen : j < tokens.length := by
      have := hj; simp only [List.length_take] at this; omega
    have hjT : j < (tokens.take (scanStop tokens b2 + 1)).length := hj
    have hget : (tokens.take (scanStop tokens b2 + 1)).get ⟨j, hjT⟩ =
        tokens.get ⟨j, hjlen⟩ := by
      simp [List.getElem_take']
    rw [hget] at hpj
    simp only [beginPred, Bool.and_eq_true, decide_eq_true_eq] at hpj
    -- j is at most the stop index of the smaller range
    have hjle : j ≤ scanStop tokens a2 := by
      by_contra hgt
      push_neg at hgt
      have hslen : scanStop tokens a2 < tokens.length := by omega
      have hs := findIdx_true_at (stopPred a2) tokens hslen
      simp only [stopPred, Bool.and_eq_true, decide_eq_true_eq] at hs
      have hlt := hmono ⟨scanStop tokens a2, hslen⟩ ⟨j, hjlen⟩ (by simpa using hgt)
        hs.1 hpj.1
      have hs2 : a2 ≤ (tokens.get ⟨scanStop tokens a2, hslen⟩).offset := hs.2
      simp only [List.get_eq_getElem] at hlt hs2 hpj
      omega
    have hjA : j < (tokens.take (scanStop tokens a2 + 1)).length := by
      simp only [List.length_take]; omega
    apply lastIdxOr0_ge (beginPred a1) (tokens.take (scanStop tokens a2 + 1)) j hjA
    have hgetA : (tokens.take (scanStop tokens a2 + 1)).get ⟨j, hjA⟩ =
        tokens.get ⟨j, hjlen⟩ := by
      simp [List.getElem_take']
    rw [hgetA]
    simp only [beginPred, Bool.and_eq_true, decide_eq_true_eq]
    exact ⟨hpj.1, by omega⟩
  · -- end anchors: the enclosed range produces the smaller or equal index
    apply lastIdxOr0_le
    intro j hj hpj
    have hjlen : j < tokens.length := by
      have := hj; simp only [List.length_take] at this; omega
    have hjlt : j < scanStop tokens a2 := by
      have := hj; simp only [List.length_take] at this; omega
    have hget : (tokens.take (scanStop tokens a2)).get ⟨j, hj⟩ =
        tokens.get ⟨j, hjlen⟩ := by
      simp [List.getElem_take']
    rw [hget] at hpj
    simp only [endPred, Bool.and_eq_true, decide_eq_true_eq] at hpj
    have hjB : j < (tokens.take (scanStop tokens b2)).length := by
      simp only [List.length_take]; omega
    apply lastIdxOr0_ge (endPred b2) (tokens.take (scanStop tokens b2)) j hjB
    have hgetB : (tokens.take (scanStop tokens b2)).get ⟨j, hjB⟩ =
        tokens.get ⟨j, hjlen⟩ := by
      simp [List.getElem_take']
    rw [hgetB]
    simp only [endPred, Bool.and_eq_true, decide_eq_true_eq]
    exact ⟨hpj.1, by omega⟩

/-- Witness for C4: the amended theorem applied to the strictly sorted
scenario-2 token list with the subset ranges (3, 7) and (0, 8). -/
theorem C4_witness :
    (segment_range goHomeTokens 0 8).1 ≤ (segment_range goHomeTokens 3 7).1 ∧
    (segment_range goHomeTokens 3 7).2 ≤ (segment_range goHomeTokens 0 8).2 :=
  C4_segment_range_monotonic goHomeTokens 3 7 0 8 (by decide)
    (by norm_num) (by norm_num) (by norm_num)

/-- Polygon coordinates of a layout element (pagexml Coords): bounding box
fields (box x, y, w, h are left, top, width, height) and the polygon points. -/
structure Coords where
  left : Int
  top : Int
  width : Int
  height : Int
  points : List (Int × Int)
deriving DecidableEq, Repr

/-- Value stored under the coords metadata key: annotation_targets accepts a
single Coords object (wrapped into a one-element list through the isinstance
branch) or a list of Coords. -/
inductive CoordsVal where
  | one : Coords → CoordsVal
  | many : List Coords → CoordsVal
deriving DecidableEq, Repr

/-- The isinstance wrap of annotation_targets: a bare Coords becomes a
one-element list. -/
def CoordsVal.toList : CoordsVal → List Coords
  | .one c => [c]
  | .many cs => cs

/-- Annotation record of globalise-extract-text.py (dataclass Annotation).
The open metadata dict is modelled by its two keys the code reads back:
text and coords. Offsets and lengths are kept as Nat, following the data
model invariant offset >= 0 and length >= 0. -/
structure Annotation where
  type : String
  id : String
  page_id : String
  offset : Nat
  length : Nat
  segmented_version_id : String := ""
  begin_anchor : Nat := 0
  end_anchor : Nat := 0
  txt_version_id : String := ""
  char_start : Nat := 0
  char_end : Nat := 0
  metadata_text : Option String := none
  metadata_coords : Option CoordsVal := none
deriving DecidableEq, Repr

/-- Fuel-driven digit expansion of a natural number, most significant digit
first, empty for 0; the fuel (first argument) only needs to be at least the
number itself. -/
def decDigits : Nat → Nat → List Char
  | 0, _ => []
  | fuel + 1, n => if n = 0 then [] else decDigits fuel (n / 10) ++ [Nat.digitChar (n % 10)]

/-- Decimal digits of a natural number, most significant first, empty for 0. -/
def decChars (n : Nat) : List Char := decDigits n n

/-- Python str(n) for a natural number: its decimal digits, with 0 printed
as the single digit 0. -/
def pyRepr (n : Nat) : List Char := if n = 0 then ['0'] else decChars n

/-- Left padding with the digit 0 up to width w, as done by the format
specifier 06d on a nonnegative value. -/
def padZeros (w : Nat) (l : List Char) : List Char :=
  List.replicate (w - l.length) '0' ++ l

/-- Python format(i, "06d"): decimal representation zero-padded to at least
six characters, with the minus sign of a negative value counting toward the
width and standing before the padding. -/
def py06d (i : Int) : List Char :=
  if i < 0 then '-' :: padZeros 5 (pyRepr i.natAbs) else padZeros 6 (pyRepr i.toNat)

/-- Sort key of the annotation sort in process_directory_group
(globalise-extract-text.py line 620): the code points of the Python f-string
built from page_id, the offset zero-padded to width 6, and 1000 minus the
length zero-padded to width 6. Python list.sort is a stable sort comparing
these key strings by code point, which on List Char is the lexicographic
order written < below. -/
def sort_key (a : Annotation) : List Char :=
  a.page_id.data ++ [' '] ++ py06d (a.offset : Int) ++ [' '] ++ py06d (1000 - (a.length : Int))

theorem decDigits_zero (f : Nat) : decDigits f 0 = [] := by
  cases f <;> simp [decDigits]

theorem decDigits_fuel : ∀ (f g n : Nat), n ≤ f → n ≤ g →
    decDigits f n = decDigits g n := by
  intro f
  induction f with
  | zero =>
    intro g n hf _
    have : n = 0 := Nat.le_zero.mp hf
    subst this
    rw [decDigits_zero, decDigits_zero]
  | succ f ih =>
    intro g n hf hg
    by_cases hn : n = 0
    · subst hn; rw [decDigits_zero, decDigits_zero]
    · obtain ⟨g', rfl⟩ : ∃ g', g = g' + 1 := ⟨g - 1, by omega⟩
      rw [decDigits, decDigits, if_neg hn, if_neg hn]
      have hdiv : n / 10 < n := Nat.div_lt_self (Nat.pos_of_ne_zero hn) (by omega)
      rw [ih g' (n / 10) (by omega) (by omega)]

theorem decChars_unfold (n : Nat) :
    decChars n = if n = 0 then [] else decChars (n / 10) ++ [Nat.digitChar (n % 10)] := by
  by_cases hn : n = 0
  · subst hn; simp [decChars, decDigits]
  · obtain ⟨m, rfl⟩ : ∃ m, n = m + 1 := ⟨n - 1, by omega⟩
    rw [decChars, decDigits, if_neg hn, if_neg hn]
    have hdiv : (m + 1) / 10 < m + 1 := Nat.div_lt_self (by omega) (by omega)
    rw [decDigits_fuel m ((m + 1) / 10) ((m + 1) / 10) (by omega) (by omega)]
    rfl

/-- Big-endian digit vector of fixed width k: exactly the k low decimal
digits of n, most significant first. -/
def bigDigits : Nat → Nat → List Char
  | 0, _ => []
  | k + 1, n => bigDigits k (n / 10) ++ [Nat.digitChar (n % 10)]

theorem bigDigits_length : ∀ (k n : Nat), (bigDigits k n).length = k := by
  intro k
  induction k with
  | zero => intro n; rfl
  | succ k ih => intro n; simp [bigDigits, ih]

theorem bigDigits_zero : ∀ (k : Nat), bigDigits k 0 = List.replicate k '0' := by
  intro k
  induction k with
  | zero => rfl
  | succ k ih =>
    rw [bigDigits, Nat.zero_div, ih, List.replicate_succ']
    rfl

theorem decChars_length : ∀ (k n : Nat), n < 10 ^ k → (decChars n).length ≤ k := by
  intro k
  induction k with
  | zero =>
    intro n h
    have : n = 0 := by simpa using h
    subst this
    simp [decChars, decDigits]
  | succ k ih =>
    intro n h
    by_cases hn : n = 0
    · subst hn; simp [decChars, decDigits]
    · rw [decChars_unfold, if_neg hn, List.length_append]
      have hdiv : n / 10 < 10 ^ k := by
        rw [Nat.div_lt_iff_lt_mul (by omega)]
        calc n < 10 ^ (k + 1) := h
        _ = 10 ^ k * 10 := by ring
      have := ih (n / 10) hdiv
      simp only [List.length_cons, List.length_nil]
      omega

theorem padZeros_eq_bigDigits : ∀ (k n : Nat), n < 10 ^ k →
    padZeros k (decChars n) = bigDigits k n := by
  intro k
  induction k with
  | zero =>
    intro n h
    have : n = 0 := by simpa using h
    subst this
    simp [padZeros, decChars, decDigits, bigDigits]
  | succ k ih =>
    intro n h
    by_cases hn : n = 0
    · subst hn
      rw [decChars_unfold]
      simp only [if_pos rfl]
      rw [bigDigits_zero, padZeros]
      simp
    · rw [decChars_unfold, if_neg hn]
      have hdiv : n / 10 < 10 ^ k := by
        rw [Nat.div_lt_iff_lt_mul (by omega)]
        calc n < 10 ^ (k + 1) := h
        _ = 10 ^ k * 10 := by ring
      have hlen : (decChars (n / 10)).length ≤ k := decChars_length k (n / 10) hdiv
      rw [padZeros, List.length_append]
      simp only [List.length_cons, List.length_nil]
      have harith : k + 1 - ((decChars (n / 10)).length + (0 + 1)) =
          k - (decChars (n / 10)).length := by omega
      rw [harith, ← List.append_assoc]
      rw [show List.replicate (k - (decChars (n / 10)).length) '0' ++ decChars (n / 10) =
        padZeros k (decChars (n / 10)) from rfl]
      rw [ih (n / 10) hdiv]
      rfl

theorem pyRepr_pad (k n : Nat) (hk : 1 ≤ k) (h : n < 10 ^ k) :
    padZeros k (pyRepr n) = bigDigits k n := by
  by_cases hn : n = 0
  · subst hn
    rw [pyRepr, if_pos rfl, bigDigits_zero, padZeros]
    simp only [List.length_cons, List.length_nil]
    obtain ⟨k', rfl⟩ : ∃ j, k = j + 1 := ⟨k - 1, by omega⟩
    rw [List.replicate_succ']
    simp
  · rw [pyRepr, if_neg hn]
    exact padZeros_eq_bigDigits k n h

theorem digitChar_lt : ∀ a < 10, ∀ b < 10, a < b → Nat.digitChar a < Nat.digitChar b := by
  decide

theorem lex_append_left_gen {α : Type} (r : α → α → Prop) :
    ∀ (l x y : List α), List.Lex r x y → List.Lex r (l ++ x) (l ++ y) := by
  intro l
  induction l with
  | nil => intro x y h; exact h
  | cons c t ih => intro x y h; exact List.Lex.cons (ih x y h)

theorem lex_append_congr_gen {α : Type} (r : α → α → Prop) :
    ∀ (x y u v : List α), List.Lex r x y → x.length = y.length →
      List.Lex r (x ++ u) (y ++ v) := by
  intro x y u v h
  induction h with
  | nil => intro hlen; simp at hlen
  | cons h ih => intro hlen; exact List.Lex.cons (ih (by simpa using hlen))
  | rel h => intro _; exact List.Lex.rel h

theorem bigDigits_lex_lt : ∀ (k m n : Nat), m < n → n < 10 ^ k →
    List.Lex (fun c d : Char => c < d) (bigDigits k m) (bigDigits k n) := by
  intro k
  induction k with
  | zero => intro m n hmn hn; simp at hn; omega
  | succ k ih =>
    intro m n hmn hn
    have hdiv : n / 10 < 10 ^ k := by
      rw [Nat.div_lt_iff_lt_mul (by omega)]
      calc n < 10 ^ (k + 1) := hn
      _ = 10 ^ k * 10 := by ring
    have hle : m / 10 ≤ n / 10 := Nat.div_le_div_right (Nat.le_of_lt hmn)
    rcases Nat.lt_or_ge (m / 10) (n / 10) with hlt | hge
    · exact lex_append_congr_gen _ _ _ _ _ (ih (m / 10) (n / 10) hlt hdiv)
        (by rw [bigDigits_length, bigDigits_length])
    · have heq : m / 10 = n / 10 := Nat.le_antisymm hle hge
      have hmod : m % 10 < n % 10 := by omega
      rw [bigDigits, bigDigits, heq]
      apply lex_append_left_gen
      exact List.Lex.rel (digitChar_lt (m % 10) (Nat.mod_lt m (by omega))
        (n % 10) (Nat.mod_lt n (by omega)) hmod)

theorem py06d_nat (n : Nat) (h : n < 1000000) : py06d (n : Int) = bigDigits 6 n := by
  rw [py06d, if_neg (by omega)]
  rw [show ((n : Int)).toNat = n from Int.toNat_natCast n]
  exact pyRepr_pad 6 n (by omega) (by norm_num; omega)

theorem py06d_lex_lt (m n : Nat) (hmn : m < n) (hn : n < 1000000) :
    List.Lex (fun c d : Char => c < d) (py06d (m : Int)) (py06d (n : Int)) := by
  rw [py06d_nat m (by omega), py06d_nat n hn]
  exact bigDigits_lex_lt 6 m n hmn (by norm_num; omega)

/-- C2, amended: the sort key of process_directory_group orders annotations
by (page_id, offset ascending, length descending) provided every offset is
below 1000000 and every length is at most 1000; outside those bounds the
zero-padded string key misorders (see the counterexample). Under the bounds,
for equal page ids a smaller offset gives a strictly smaller key, and for
equal page ids and equal offsets a greater length gives a strictly smaller
key, so the stable sort puts the annotation first in both cases. -/
theorem C2_sort_key_order (a b : Annotation)
    (ha_off : a.offset < 1000000) (hb_off : b.offset < 1000000)
    (ha_len : a.length ≤ 1000) (hb_len : b.length ≤ 1000)
    (hpage : a.page_id = b.page_id) :
    (a.offset < b.offset → sort_key a < sort_key b) ∧
    (a.offset = b.offset → b.length < a.length → sort_key a < sort_key b) := by
  have hkey : ∀ c : Annotation, sort_key c =
      (c.page_id.data ++ [' ']) ++
        ((py06d (c.offset : Int) ++ [' ']) ++ py06d (1000 - (c.length : Int))) := by
    intro c
    simp [sort_key, List.append_assoc]
  constructor
  · intro hoff
    rw [hkey, hkey, hpage]
    apply lex_append_left_gen
    rw [List.append_assoc, List.append_assoc]
    apply lex_append_congr_gen _ _ _ _ _ (py06d_lex_lt a.offset b.offset hoff hb_off)
    rw [py06d_nat a.offset ha_off, py06d_nat b.offset hb_off,
      bigDigits_length, bigDigits_length]
  · intro hoff hlen
    rw [hkey, hkey, hpage, hoff]
    apply lex_append_left_gen
    apply lex_append_left_gen
    have hcast : ∀ n : Nat, n ≤ 1000 → (1000 - (n : Int)) = ((1000 - n : Nat) : Int) := by
      intro n hn; omega
    rw [hcast a.length ha_len, hcast b.length hb_len]
    exact py06d_lex_lt (1000 - a.length) (1000 - b.length) (by omega) (by omega)

/-- Concrete annotations used by the C2 witness and counterexample. -/
def c2wA : Annotation := { type := "tt:Word", id := "w1", page_id := "p1", offset := 3, length := 2 }

/-- Second concrete annotation for the C2 witness, same page, larger offset. -/
def c2wB : Annotation := { type := "tt:Word", id := "w2", page_id := "p1", offset := 5, length := 9 }

/-- Third concrete annotation for the C2 witness, an enclosing span. -/
def c2wC : Annotation := { type := "px:TextLine", id := "l1", page_id := "p1", offset := 7, length := 60 }

/-- Fourth concrete annotation for the C2 witness, nested in c2wC. -/
def c2wD : Annotation := { type := "tt:Word", id := "w3", page_id := "p1", offset := 7, length := 4 }

/-- Annotation of length 1011 for the C2 counterexample. -/
def c2xA : Annotation := { type := "t", id := "a", page_id := "p", offset := 0, length := 1011 }

/-- Annotation of length 1001 for the C2 counterexample. -/
def c2xB : Annotation := { type := "t", id := "b", page_id := "p", offset := 0, length := 1001 }

/-- Witness for C2: the amended ordering theorem applied to two concrete
annotation pairs on the same page, one pair separated by offset, one by
length. -/
theorem C2_witness :
    sort_key c2wA < sort_key c2wB ∧ sort_key c2wC < sort_key c2wD := by
  constructor
  · exact (C2_sort_key_order c2wA c2wB (by norm_num [c2wA]) (by norm_num [c2wB])
      (by norm_num [c2wA]) (by norm_num [c2wB]) rfl).1 (by norm_num [c2wA, c2wB])
  · exact (C2_sort_key_order c2wC c2wD (by norm_num [c2wC]) (by norm_num [c2wD])
      (by norm_num [c2wC]) (by norm_num [c2wD]) rfl).2 rfl (by norm_num [c2wC, c2wD])

/-- C2, counterexample to the claim as stated: for two annotations on the
same page with the same offset and lengths 1011 and 1001, the claim requires
the longer one to sort first (strictly smaller key), but the format
expression 1000 - length turns negative and the zero-padded negative
strings compare reversed: the key of the length-1001 annotation is smaller,
so the shorter span sorts first. -/
theorem C2_counterexample :
    c2xA.page_id = c2xB.page_id ∧ c2xA.offset = c2xB.offset ∧
    c2xB.length < c2xA.length ∧
    ¬ sort_key c2xA < sort_key c2xB ∧ sort_key c2xB < sort_key c2xA := by
  refine ⟨rfl, rfl, by decide, by decide, by decide⟩

/-- Web-annotation selector shapes produced by globalise-extract-text.py.
Each constructor mirrors one selector dict built by the code: a media-frags
FragmentSelector with an xywh value, an SvgSelector with an svg document
value, a iiif ImageApiSelector with a region, the custom TextAnchorSelector
with start and end anchors, and the rfc5147 FragmentSelector with a char
range value. -/
inductive GSelector where
  | fragment : String → GSelector
  | svg : String → GSelector
  | imageApi : String → GSelector
  | textAnchor : Nat → Nat → GSelector
  | rfcFragment : String → GSelector
deriving DecidableEq, Repr

/-- Web-annotation target shapes produced by globalise-extract-text.py.
image is a target dict of type Image with a source and no selector;
imageWithSelectors is the combined Image target carrying a selector list;
canvas is the Canvas target with its selector list; textAnchorTarget is the
Text target with the TextAnchorSelector (source and anchors);
textCutout is the selector-less Text target addressing the segment cutout
view; textFragment is the Text target with the rfc5147 FragmentSelector. -/
inductive GTarget where
  | image : String → GTarget
  | imageWithSelectors : String → List GSelector → GTarget
  | canvas : String → List GSelector → GTarget
  | textAnchorTarget : String → Nat → Nat → GTarget
  | textCutout : String → GTarget
  | textFragment : String → String → GTarget
deriving DecidableEq, Repr

/-- Bounding box of a Coords value as the x,y,w,h string used inside iiif
urls and fragment selectors; the box keys x, y, w, h of pagexml Coords hold
left, top, width and height. -/
def xywh_of_box (c : Coords) : String :=
  toString c.left ++ "," ++ toString c.top ++ "," ++ toString c.width ++ "," ++
    toString c.height

/-- to_xywh of globalise-extract-text.py (line 538): left, top, width,
height of a Coords value joined by commas. -/
def to_xywh (c : Coords) : String :=
  toString c.left ++ "," ++ toString c.top ++ "," ++ toString c.width ++ "," ++
    toString c.height

/-- One polygon path of svg_selector: L x y commands joined by blanks, a
closing Z, and the leading L replaced by M. -/
def svgPathDef (coords : List (Int × Int)) : String :=
  let path_def := String.intercalate " "
    (coords.map (fun c => "L" ++ toString c.1 ++ " " ++ toString c.2)) ++ " Z"
  "M" ++ path_def.drop 1

/-- svg_selector of globalise-extract-text.py (lines 502-513): an
SvgSelector whose svg document has height and width the maxima over all
polygon points and one closed path per polygon. Python computes max over a
nonempty point list; the fold starts at 0, which agrees on the nonempty
pixel-coordinate lists the code processes. -/
def svg_selector (coords_list : List (List (Int × Int))) : GSelector :=
  let height := coords_list.foldl
    (fun h coords => max h ((coords.map Prod.snd).foldl max 0)) 0
  let width := coords_list.foldl
    (fun w coords => max w ((coords.map Prod.fst).foldl max 0)) 0
  let path := "<path d=\"" ++ String.intercalate " " (coords_list.map svgPathDef) ++ "\"/>"
  GSelector.svg ("<svg height=\"" ++ toString height ++ "\" width=\"" ++
    toString width ++ "\">" ++ path ++ "</svg>")

/-- image_target_wth_svg_selector of globalise-extract-text.py (lines
516-518): an Image target whose selector is the svg selector of the given
polygons. -/
def image_target_wth_svg_selector (iiif_url : String)
    (coords_list : List (List (Int × Int))) : GTarget :=
  GTarget.imageWithSelectors iiif_url [svg_selector coords_list]

/-- make_image_targets of globalise-extract-text.py (lines 419-448): per
polygon one selector-less Image target addressing the cropped region, then
one combined Image target over the full image whose selectors are the
per-polygon FragmentSelectors plus the svg selector. -/
def make_image_targets (iiif_base_url_idx : String → String) (page_id : String)
    (coords : List Coords) : List GTarget :=
  let iiif_base_url := iiif_base_url_idx page_id
  let iiif_url := iiif_base_url ++ "/full/max/0/default.jpg"
  let selectors := coords.map (fun c => GSelector.fragment ("xywh=" ++ xywh_of_box c))
  let targets := coords.map
    (fun c => GTarget.image (iiif_base_url ++ "/" ++ xywh_of_box c ++ "/max/0/default.jpg"))
  targets ++ [GTarget.imageWithSelectors iiif_url
    (selectors ++ [svg_selector (coords.map (fun c => c.points))])]

/-- canvas_target of globalise-extract-text.py (lines 482-499): a Canvas
target whose selectors are the ImageApiSelectors of the xywh list (when the
list is nonempty, matching Python truthiness) followed by the svg selector
of the polygon list (when nonempty). -/
def canvas_target (canvas_url : String) (xywh_list : List String)
    (coords_list : List (List (Int × Int))) : GTarget :=
  GTarget.canvas canvas_url
    ((if xywh_list.isEmpty then [] else xywh_list.map GSelector.imageApi) ++
     (if coords_list.isEmpty then [] else [svg_selector coords_list]))

/-- make_text_targets of globalise-extract-text.py (lines 454-479): builds
the TextAnchorSelector target, the cutout target and the FragmentSelector
target, but returns only the first two; fragment_selector_target is dead
local state of the source function, kept here to mirror it. -/
def make_text_targets (textrepo_base_url : String) ( annotation : Annotation) :
    List GTarget :=
  let text_anchor_selector_target := GTarget.textAnchorTarget
    (textrepo_base_url ++ "/rest/versions/" ++ annotation.segmented_version_id ++ "/contents")
    annotation.begin_anchor annotation.end_anchor
  let cutout_target := GTarget.textCutout
    (textrepo_base_url ++ "/view/versions/" ++ annotation.segmented_version_id ++
      "/segments/index/" ++ toString annotation.begin_anchor ++ "/" ++
      toString annotation.end_anchor)
  let fragment_selector_target := GTarget.textFragment
    (textrepo_base_url ++ "/rest/versions/" ++ annotation.txt_version_id ++ "/contents")
    ("char=" ++ toString annotation.char_start ++ "," ++ toString annotation.char_end)
  [text_anchor_selector_target, cutout_target]

/-- annotation_targets of globalise-extract-text.py (lines 542-566): image
and canvas targets when coords metadata is present, a plain full-image
target for page annotations, then the text targets. -/
def annotation_targets (iiif_base_url_idx : String → String)
    ( annotation : Annotation) : List GTarget :=
  (match annotation.metadata_coords with
   | some cv =>
     make_image_targets iiif_base_url_idx annotation.page_id cv.toList ++
       [canvas_target ("urn:globalise:canvas:" ++ annotation.page_id)
         (cv.toList.map to_xywh) (cv.toList.map (fun c => c.points))]
   | none => []) ++
  (if annotation.type = "px:Page" then
    [GTarget.image (iiif_base_url_idx annotation.page_id ++ "/full/max/0/default.jpg")]
   else []) ++
  make_text_targets "https://globalise.tt.di.huc.knaw.nl/textrepo" annotation

/-- Selects the Text targets among the emitted targets. -/
def isTextTarget : GTarget → Bool
  | .textAnchorTarget _ _ _ => true
  | .textCutout _ => true
  | .textFragment _ _ => true
  | _ => false

/-- Selects the FragmentSelector Text target the claim says is emitted. -/
def isTextFragment : GTarget → Bool
  | .textFragment _ _ => true
  | _ => false

theorem make_image_targets_no_text (idx : String → String) (page_id : String)
    (coords : List Coords) :
    ∀ t ∈ make_image_targets idx page_id coords, isTextTarget t = false := by
  intro t ht
  rw [make_image_targets] at ht
  rcases List.mem_append.mp ht with h | h
  · rcases List.mem_map.mp h with ⟨c, _, rfl⟩
    rfl
  · rcases List.mem_singleton.mp h with rfl
    rfl

/-- C3, amended: for every annotation, annotation_targets always emits
exactly two Text targets, the anchor-selector target and the cutout target,
in this order after the image and canvas targets; the FragmentSelector
target over the versioned plain-text resource is constructed by
make_text_targets but never returned, so no emitted target is a
FragmentSelector Text target. -/
theorem C3_text_targets (idx : String → String) (a : Annotation) :
    (annotation_targets idx a).filter isTextTarget =
      [GTarget.textAnchorTarget
         ("https://globalise.tt.di.huc.knaw.nl/textrepo" ++ "/rest/versions/" ++
           a.segmented_version_id ++ "/contents") a.begin_anchor a.end_anchor,
       GTarget.textCutout
         ("https://globalise.tt.di.huc.knaw.nl/textrepo" ++ "/view/versions/" ++
           a.segmented_version_id ++ "/segments/index/" ++ toString a.begin_anchor ++
           "/" ++ toString a.end_anchor)] ∧
    (annotation_targets idx a).all (fun t => ! isTextFragment t) = true := by
  have hpart1 : ∀ t ∈ (match a.metadata_coords with
      | some cv =>
        make_image_targets idx a.page_id cv.toList ++
          [canvas_target ("urn:globalise:canvas:" ++ a.page_id)
            (cv.toList.map to_xywh) (cv.toList.map (fun (c : Coords) => c.points))]
      | none => ([] : List GTarget)), isTextTarget t = false := by
    cases hmc : a.metadata_coords with
    | none => intro t ht; simp at ht
    | some cv =>
      intro t ht
      rcases List.mem_append.mp ht with h | h
      · exact make_image_targets_no_text idx a.page_id cv.toList t h
      · rcases List.mem_singleton.mp h with rfl
        rfl
  have hpart2 : ∀ t ∈ (if a.type = "px:Page" then
      [GTarget.image (idx a.page_id ++ "/full/max/0/default.jpg")]
      else ([] : List GTarget)), isTextTarget t = false := by
    by_cases hpg : a.type = "px:Page"
    · rw [if_pos hpg]
      intro t ht
      rcases List.mem_singleton.mp ht with rfl
      rfl
    · rw [if_neg hpg]
      intro t ht
      simp at ht
  constructor
  · rw [annotation_targets, List.filter_append, List.filter_append]
    rw [List.filter_eq_nil_iff.mpr (fun t ht => by simp [hpart1 t ht]),
      List.filter_eq_nil_iff.mpr (fun t ht => by simp [hpart2 t ht])]
    rfl
  · rw [annotation_targets, List.all_append, List.all_append]
    have hno : ∀ (l : List GTarget), (∀ t ∈ l, isTextTarget t = false) →
        l.all (fun t => ! isTextFragment t) = true := by
      intro l hl
      rw [List.all_eq_true]
      intro t ht
      have := hl t ht
      cases t <;> simp_all [isTextTarget, isTextFragment]
    rw [hno _ hpart1, hno _ hpart2]
    rfl

/-- Concrete annotation for the C3 counterexample: a token annotation with a
versioned plain-text resource id available. -/
def c3a : Annotation :=
  { type := "tt:Token", id := "urn:globalise:doc:token:7", page_id := "page1",
    offset := 10, length := 3, segmented_version_id := "segv",
    txt_version_id := "txtv", char_start := 10, char_end := 13 }

/-- C3, counterexample to the claim as stated: the annotation c3a has a
versioned plain-text resource id, so the claim requires a third Text target
with a character-offset FragmentSelector; the code emits exactly two
targets and none of them is a FragmentSelector Text target. -/
theorem C3_counterexample :
    c3a.txt_version_id ≠ "" ∧
    (annotation_targets (fun _ => "https://iiif.example") c3a).length = 2 ∧
    (annotation_targets (fun _ => "https://iiif.example") c3a).all
      (fun t => ! isTextFragment t) = true := by
  refine ⟨by decide, by decide, by decide⟩

/-- Whitespace test of Python str.strip with default arguments, modelled by
the Lean character whitespace test (space, tab, newline, carriage return
cover everything occurring in the pipeline). -/
def isPySpace (c : Char) : Bool := c.isWhitespace

/-- Removal of leading whitespace (Python str.lstrip). -/
def stripLeading (l : List Char) : List Char := l.dropWhile isPySpace

/-- Removal of trailing whitespace (Python str.rstrip). -/
def stripTrailing (l : List Char) : List Char :=
  (l.reverse.dropWhile isPySpace).reverse

/-- Removal of surrounding whitespace on the character list. -/
def stripChars (l : List Char) : List Char := stripTrailing (stripLeading l)

/-- Python str.strip with default arguments. -/
def pyStrip (s : String) : String := ⟨stripChars s.data⟩

/-- Python slicing s[a:b] for 0 <= a <= b, the only form the pipeline
uses. -/
def pySlice (s : String) (a b : Nat) : String := ⟨(s.data.drop a).take (b - a)⟩

/-- Word element of the page layout (gt.PXWord): id, owning page and polygon
coordinates. -/
structure PXWord where
  id : String
  page_id : String
  coords : Coords
deriving DecidableEq, Repr

/-- Modelled from the spec: display words are produced by
gt.to_display_words of globalise_tools.tools, which is not under src; per
spec section 4.1 the Offset Index Builder concatenates each word's raw text
including its trailing whitespace, so a display word's text is the word
text followed by whitespace and in particular carries no leading
whitespace (captured by the noLeadWs hypothesis below). -/
structure DisplayWord where
  id : String
  text : String
  px_words : List PXWord
deriving DecidableEq, Repr

/-- A string with no leading whitespace: the display-word text shape stated
by the spec. -/
def noLeadWs (s : String) : Bool :=
  match s.data with
  | [] => true
  | c :: _ => ! isPySpace c

/-- make_word_id of globalise-extract-text.py (lines 223-224). -/
def make_word_id (px : String) (w : DisplayWord) : String :=
  px ++ ":word:" ++ String.intercalate ":" (w.px_words.map (fun pxw => pxw.id))

/-- word_annotation of globalise-extract-text.py (lines 209-220): offset is
the current running text length, length the length of the stripped word
text, metadata text the stripped text and metadata coords the polygon list
of the underlying pagexml words. Python reads px_words[0].page_id, which
raises on an empty px_words list; the embedding defaults to the empty
string there. -/
def word_annotation ( id_prefix : String) (stripped : String) (text : String)
    (w : DisplayWord) : Annotation :=
  { type := "tt:Word",
    id := make_word_id id_prefix w,
    page_id := ((w.px_words.head?).map (fun pxw => pxw.page_id)).getD "",
    offset := text.length,
    length := stripped.length,
    metadata_text := some stripped,
    metadata_coords := some (.many (w.px_words.map (fun pxw => pxw.coords))) }

/-- The word loop of process_pagexml (globalise-extract-text.py lines
129-136): walk the display words, emit one word annotation per word against
the running text, and append the unstripped word text to the running text;
returns the annotations and the final text. -/
def buildWordAnnotations ( id_prefix : String) :
    List DisplayWord → String → List Annotation × String
  | [], text => ([], text)
  | w :: ws, text =>
    match buildWordAnnotations id_prefix ws (text ++ w.text) with
    | (rest, final) =>
      ( word_annotation id_prefix (pyStrip w.text) text w :: rest, final)

/-- Concatenation of the raw display-word texts, the text contribution of
the word loop. -/
def textConcat : List DisplayWord → String
  | [] => ""
  | w :: ws => w.text ++ textConcat ws

theorem dropWhile_dropWhile {α : Type} (p : α → Bool) (l : List α) :
    (l.dropWhile p).dropWhile p = l.dropWhile p := by
  induction l with
  | nil => rfl
  | cons a t ih =>
    by_cases h : p a = true
    · simp [List.dropWhile_cons, h, ih]
    · simp [List.dropWhile_cons, h]

theorem dropWhile_length_le {α : Type} (p : α → Bool) :
    ∀ (l : List α), (l.dropWhile p).length ≤ l.length := by
  intro l
  induction l with
  | nil => simp
  | cons a t ih =>
    by_cases h : p a = true
    · rw [List.dropWhile_cons, if_pos h]
      simp only [List.length_cons]
      omega
    · rw [List.dropWhile_cons, if_neg (by simp [h])]

theorem noLead_of_prefix {l l' : List Char} (hl : l.dropWhile isPySpace = l)
    (hp : l' <+: l) : l'.dropWhile isPySpace = l' := by
  cases l' with
  | nil => rfl
  | cons c t =>
    obtain ⟨r, hr⟩ := hp
    have hc : isPySpace c = false := by
      by_contra hcc
      have hcc' : isPySpace c = true := by
        cases h : isPySpace c
        · exact absurd h hcc
        · rfl
      rw [← hr, List.cons_append, List.dropWhile_cons, if_pos hcc'] at hl
      have hlen := congrArg List.length hl
      have := dropWhile_length_le isPySpace (t ++ r)
      have hta : (t ++ r).length = t.length + r.length := List.length_append t r
      simp at hlen
      omega
    rw [List.dropWhile_cons, if_neg (by simp [hc])]

theorem stripTrailing_isPrefix (l : List Char) : stripTrailing l <+: l := by
  have hsuf : l.reverse.dropWhile isPySpace <:+ l.reverse :=
    List.dropWhile_suffix isPySpace
  have := List.reverse_prefix.mpr (by simpa using hsuf)
  simpa [stripTrailing] using this

theorem stripTrailing_idem (l : List Char) :
    stripTrailing (stripTrailing l) = stripTrailing l := by
  unfold stripTrailing
  rw [List.reverse_reverse, dropWhile_dropWhile]

theorem stripChars_idem (l : List Char) : stripChars (stripChars l) = stripChars l := by
  unfold stripChars
  have h1 : stripLeading (stripTrailing (stripLeading l)) =
      stripTrailing (stripLeading l) :=
    noLead_of_prefix (dropWhile_dropWhile isPySpace l) (stripTrailing_isPrefix _)
  rw [h1, stripTrailing_idem]

theorem stripChars_prefix_of_noLead {l : List Char}
    (hl : l.dropWhile isPySpace = l) : stripChars l <+: l := by
  unfold stripChars stripLeading
  rw [hl]
  exact stripTrailing_isPrefix l

theorem noLeadWs_data {s : String} (h : noLeadWs s = true) :
    s.data.dropWhile isPySpace = s.data := by
  unfold noLeadWs at h
  cases hd : s.data with
  | nil => rfl
  | cons c t =>
    rw [hd] at h
    simp only [Bool.not_eq_true'] at h
    rw [List.dropWhile_cons, if_neg (by simp [h])]

theorem buildWordAnnotations_text ( id_prefix : String) :
    ∀ (ws : List DisplayWord) (t0 : String),
      (buildWordAnnotations id_prefix ws t0).2 = t0 ++ textConcat ws := by
  intro ws
  induction ws with
  | nil =>
    intro t0
    show t0 = t0 ++ ""
    cases t0
    show _ = String.mk (_ ++ [])
    rw [List.append_nil]
  | cons w ws ih =>
    intro t0
    show (buildWordAnnotations id_prefix ws (t0 ++ w.text)).2 = _
    rw [ih (t0 ++ w.text)]
    show String.mk _ = String.mk _
    simp [String.data_append, textConcat]

theorem buildWordAnnotations_spec ( id_prefix : String) :
    ∀ (ws : List DisplayWord) (t0 : String),
      (∀ w ∈ ws, noLeadWs w.text = true) →
      ∀ a ∈ (buildWordAnnotations id_prefix ws t0).1,
        a.metadata_text = some (pyStrip (pySlice
          (buildWordAnnotations id_prefix ws t0).2 a.offset (a.offset + a.length))) := by
  intro ws
  induction ws with
  | nil => intro t0 _ a ha; simp [buildWordAnnotations] at ha
  | cons w ws ih =>
    intro t0 hnl a ha
    have hfinal : (buildWordAnnotations id_prefix (w :: ws) t0).2 =
        (buildWordAnnotations id_prefix ws (t0 ++ w.text)).2 := rfl
    have hsplit : (buildWordAnnotations id_prefix (w :: ws) t0).1 =
        word_annotation id_prefix (pyStrip w.text) t0 w ::
          (buildWordAnnotations id_prefix ws (t0 ++ w.text)).1 := rfl
    rw [hsplit] at ha
    rcases List.mem_cons.mp ha with rfl | hmem
    · -- the annotation of the first word
      rw [hfinal, buildWordAnnotations_text]
      have hoff : ( word_annotation id_prefix (pyStrip w.text) t0 w).offset =
          t0.length := rfl
      have hlen : ( word_annotation id_prefix (pyStrip w.text) t0 w).length =
          (pyStrip w.text).length := rfl
      rw [hoff, hlen]
      have hdata : ((t0 ++ w.text) ++ textConcat ws).data =
          t0.data ++ (w.text.data ++ (textConcat ws).data) := by
        rw [String.data_append, String.data_append, List.append_assoc]
      have hnlw : noLeadWs w.text = true := hnl w (by simp)
      have hpre : (pyStrip w.text).data <+: w.text.data := by
        show stripChars w.text.data <+: w.text.data
        exact stripChars_prefix_of_noLead (noLeadWs_data hnlw)
      obtain ⟨tail, htail⟩ := hpre
      have hslice : pySlice ((t0 ++ w.text) ++ textConcat ws) t0.length
          (t0.length + (pyStrip w.text).length) = pyStrip w.text := by
        unfold pySlice
        rw [hdata]
        have hdrop : (t0.data ++ (w.text.data ++ (textConcat ws).data)).drop
            t0.length = w.text.data ++ (textConcat ws).data := by
          exact List.drop_left t0.data _
        rw [hdrop]
        have harith : t0.length + (pyStrip w.text).length - t0.length =
            (pyStrip w.text).length := by omega
        rw [harith, ← htail, List.append_assoc]
        have htake : ((pyStrip w.text).data ++ (tail ++ (textConcat ws).data)).take
            (pyStrip w.text).length = (pyStrip w.text).data :=
          List.take_left _ _
        rw [htake]
      rw [hslice]
      show some (pyStrip w.text) = some (pyStrip (pyStrip w.text))
      have : pyStrip (pyStrip w.text) = pyStrip w.text := by
        show String.mk (stripChars (stripChars w.text.data)) = _
        rw [stripChars_idem]
        rfl
      rw [this]
    · rw [hfinal]
      exact ih (t0 ++ w.text) (fun v hv => hnl v (by simp [hv])) a hmem

/-- C5: for every list of display words with no leading whitespace (the
shape the spec ascribes to display words), every word annotation emitted by
the word loop has metadata text equal to the whitespace-stripped substring
text[offset : offset + length] of the unstripped concatenated document
text, with offset the running length at append time and length the
stripped-word length (both fixed by word_annotation). -/
theorem C5_word_text_round_trip ( id_prefix : String) (ws : List DisplayWord)
    (h : ∀ w ∈ ws, noLeadWs w.text = true) :
    ((buildWordAnnotations id_prefix ws "").1.all fun a =>
      a.metadata_text == some (pyStrip (pySlice
        (buildWordAnnotations id_prefix ws "").2 a.offset (a.offset + a.length)))) = true := by
  rw [List.all_eq_true]
  intro a ha
  have := buildWordAnnotations_spec id_prefix ws "" h a ha
  simpa [beq_iff_eq] using this

/-- Display words for the C5 witness, with trailing whitespace only. -/
def c5words : List DisplayWord :=
  [{ id := "dw1", text := "Go ", px_words :=
      [{ id := "pw1", page_id := "pageA",
         coords := { left := 0, top := 0, width := 10, height := 5,
                     points := [(0, 0), (10, 0), (10, 5), (0, 5)] } }] },
   { id := "dw2", text := "home.\n", px_words :=
      [{ id := "pw2", page_id := "pageA",
         coords := { left := 12, top := 0, width := 20, height := 5,
                     points := [(12, 0), (32, 0), (32, 5), (12, 5)] } }] }]

/-- Witness for C5: the round-trip theorem applied to the concrete
two-word document c5words. -/
theorem C5_witness :
    ((buildWordAnnotations "urn:globalise:p" c5words "").1.all fun a =>
      a.metadata_text == some (pyStrip (pySlice
        (buildWordAnnotations "urn:globalise:p" c5words "").2 a.offset
        (a.offset + a.length)))) = true :=
  C5_word_text_round_trip "urn:globalise:p" c5words (by decide)

/-- The scan ranges matching an offset: entries of the page_id to
(start, end) map whose half-open range contains the offset. This is the
list comprehension of get_page_id (globalise-extract-text.py lines
349-350); only the start offset of the queried range takes part. -/
def matchingRanges (offset : Nat) (scan_ranges : List (String × Nat × Nat)) :
    List (String × Nat × Nat) :=
  scan_ranges.filter (fun sr => decide (sr.2.1 ≤ offset) && decide (offset < sr.2.2))

/-- get_page_id of globalise-extract-text.py (lines 346-355): the page id
of the unique matching range, or the placeholder when zero or several
ranges match (the Python version prints a diagnostic with ic in that case,
a side effect without influence on the result). The length argument only
feeds that diagnostic. -/
def get_page_id (offset length : Nat)
    (scan_ranges : List (String × Nat × Nat)) : String :=
  match matchingRanges offset scan_ranges with
  | [sr] => sr.1
  | _ => ":placeholder:"

theorem nodup_all_eq_singleton {α : Type} (l : List α) (x : α) (hx : x ∈ l)
    (hnd : l.Nodup) (hall : ∀ y ∈ l, y = x) : l = [x] := by
  match l with
  | [] => exact absurd hx (by simp)
  | [a] => rw [hall a (by simp)]
  | a :: b :: t =>
    exfalso
    have ha := hall a (by simp)
    have hb := hall b (by simp)
    rw [List.nodup_cons] at hnd
    exact hnd.1 (by rw [ha, ← hb]; simp)

/-- C6: with distinct page ids in the scan-range map, get_page_id returns
the page id of the unique range containing the start offset when exactly
one such range exists, and returns the placeholder page id (after a
diagnostic, modelled away as a side effect) when no range or more than one
range contains the start offset, instead of raising. -/
theorem C6_get_page_id (offset length : Nat)
    (scan_ranges : List (String × Nat × Nat))
    (hkeys : (scan_ranges.map Prod.fst).Nodup) :
    (∀ x ∈ scan_ranges, x.2.1 ≤ offset → offset < x.2.2 →
      (∀ y ∈ scan_ranges, y.2.1 ≤ offset → offset < y.2.2 → y = x) →
      get_page_id offset length scan_ranges = x.1) ∧
    ((∀ x ∈ scan_ranges, ¬ (x.2.1 ≤ offset ∧ offset < x.2.2)) →
      get_page_id offset length scan_ranges = ":placeholder:") ∧
    (∀ x ∈ scan_ranges, ∀ y ∈ scan_ranges, x ≠ y →
      x.2.1 ≤ offset → offset < x.2.2 → y.2.1 ≤ offset → offset < y.2.2 →
      get_page_id offset length scan_ranges = ":placeholder:") := by
  have hnd : (matchingRanges offset scan_ranges).Nodup :=
    (hkeys.of_map Prod.fst).filter _
  refine ⟨?_, ?_, ?_⟩
  · intro x hx hle hlt huniq
    have hxf : x ∈ matchingRanges offset scan_ranges := by
      rw [matchingRanges, List.mem_filter]
      exact ⟨hx, by simp [hle, hlt]⟩
    have hall : ∀ y ∈ matchingRanges offset scan_ranges, y = x := by
      intro y hy
      rw [matchingRanges, List.mem_filter] at hy
      simp only [Bool.and_eq_true, decide_eq_true_eq] at hy
      exact huniq y hy.1 hy.2.1 hy.2.2
    have hfil := nodup_all_eq_singleton _ x hxf hnd hall
    rw [get_page_id, hfil]
  · intro hnone
    have hfil : matchingRanges offset scan_ranges = [] := by
      rw [matchingRanges, List.filter_eq_nil_iff]
      intro sr hsr
      simp only [Bool.and_eq_true, decide_eq_true_eq, not_and]
      intro hle hlt
      exact hnone sr hsr ⟨hle, hlt⟩
    rw [get_page_id, hfil]
  · intro x hx y hy hne hxle hxlt hyle hylt
    have hxf : x ∈ matchingRanges offset scan_ranges := by
      rw [matchingRanges, List.mem_filter]
      exact ⟨hx, by simp [hxle, hxlt]⟩
    have hyf : y ∈ matchingRanges offset scan_ranges := by
      rw [matchingRanges, List.mem_filter]
      exact ⟨hy, by simp [hyle, hylt]⟩
    rw [get_page_id]
    cases hfil : matchingRanges offset scan_ranges with
    | nil => rfl
    | cons z zs =>
      cases zs with
      | nil =>
        rw [hfil] at hxf hyf
        have hxz := List.mem_singleton.mp hxf
        have hyz := List.mem_singleton.mp hyf
        exact absurd (hxz.trans hyz.symm) hne
      | cons z2 zs2 => rfl

/-- Scan ranges for the C6 witness: two adjacent pages. -/
def c6ranges : List (String × Nat × Nat) := [("pageA", 0, 10), ("pageB", 10, 20)]

/-- Overlapping scan ranges for the C6 witness. -/
def c6overlap : List (String × Nat × Nat) := [("pA", 0, 10), ("pB", 3, 12)]

/-- Witness for C6: the characterization applied to concrete maps covering
the unique, the zero-match and the ambiguous case. -/
theorem C6_witness :
    get_page_id 5 3 c6ranges = "pageA" ∧
    get_page_id 25 2 c6ranges = ":placeholder:" ∧
    get_page_id 5 0 c6overlap = ":placeholder:" := by
  refine ⟨?_, ?_, ?_⟩
  · exact (C6_get_page_id 5 3 c6ranges (by decide)).1 ("pageA", 0, 10)
      (by decide) (by decide) (by decide) (by decide)
  · exact (C6_get_page_id 25 2 c6ranges (by decide)).2.1 (by decide)
  · exact (C6_get_page_id 5 0 c6overlap (by decide)).2.2 ("pA", 0, 10)
      (by decide) ("pB", 3, 12) (by decide) (by decide) (by decide) (by decide)
      (by decide) (by decide)

/-- C9: get_page_id depends on the start offset only: the filter in the
code compares range bounds against range_start alone (range_end is computed
but only printed in the diagnostic), so two calls differing only in length
agree, and a range spanning a page boundary is assigned the page of its
start offset, as the concrete boundary-spanning example shows. -/
theorem C9_get_page_id_start_only :
    (∀ (offset l1 l2 : Nat) (scan_ranges : List (String × Nat × Nat)),
      get_page_id offset l1 scan_ranges = get_page_id offset l2 scan_ranges) ∧
    get_page_id 5 10 [("A", 0, 10), ("B", 10, 20)] = "A" :=
  ⟨fun _ _ _ _ => rfl, by decide⟩

/-- to_conll2002 of globalise-extract-text.py (lines 239-240): a bare
newline for the empty or newline token (paragraph boundaries), otherwise
the token text, a space, the letter O and a newline. -/
def to_conll2002 (token : String) : String :=
  if token = "" ∨ token = "\n" then "\n" else token ++ " O\n"

/-- as_conll2002 of globalise-extract-text.py (lines 243-244). -/
def as_conll2002 (tokens : List String) : List String :=
  tokens.map to_conll2002

/-- C8, amended: the CoNLL export produces exactly one output line per
token; for a real token the line is the token text, a single space (not a
tab) and the letter O; for a paragraph-boundary token (empty text) it is a
blank line. -/
theorem C8_conll_lines (tokens : List GTToken) :
    (as_conll2002 (tokens.map (fun t => t.text))).length = tokens.length ∧
    (∀ t ∈ tokens, t.text ≠ "" → t.text ≠ "\n" →
      to_conll2002 t.text = t.text ++ " O\n") ∧
    (∀ t ∈ tokens, t.text = "" → to_conll2002 t.text = "\n") := by
  refine ⟨by simp [as_conll2002], ?_, ?_⟩
  · intro t _ h1 h2
    rw [to_conll2002, if_neg (by simp [h1, h2])]
  · intro t _ h
    rw [to_conll2002, if_pos (Or.inl h)]

/-- Witness for C8: the amended line format applied to a concrete token
list with one real token and one paragraph sentinel. -/
theorem C8_witness :
    to_conll2002 ({ text := "home", text_with_ws := "home ", offset := 3 } : GTToken).text =
      "home O\n" ∧
    to_conll2002 ({ text := "", text_with_ws := "", offset := -1 } : GTToken).text = "\n" := by
  constructor
  · exact (C8_conll_lines [{ text := "home", text_with_ws := "home ", offset := 3 },
      { text := "", text_with_ws := "", offset := -1 }]).2.1
      { text := "home", text_with_ws := "home ", offset := 3 } (by simp) (by decide) (by decide)
  · exact (C8_conll_lines [{ text := "home", text_with_ws := "home ", offset := 3 },
      { text := "", text_with_ws := "", offset := -1 }]).2.2
      { text := "", text_with_ws := "", offset := -1 } (by simp) rfl

/-- C8, counterexample to the claim as stated: the claim requires the line
for a real token to be the token text, a tab character and O; the code
joins them with a space, so the line for the token Go is not the claimed
tab-separated line. -/
theorem C8_counterexample :
    to_conll2002 "Go" = "Go O\n" ∧ to_conll2002 "Go" ≠ "Go\tO\n" := by
  refine ⟨rfl, by decide⟩

/-- Coordinate triple stored in one provenance interval of
data/document_data.json: iiif base uri, canvas id, polygon. -/
structure IvData where
  iiif_base_uri : String
  canvas_id : String
  coords : List (Int × Int)
deriving DecidableEq, Repr

/-- One per-document record of document_data.json as used by
XMIProcessor: the checksum of the exported plain text, its source url and
the serialized interval list (begin, end, data). -/
structure DocData where
  plain_text_md5 : String
  plain_text_source : String
  text_intervals : List (Int × Int × IvData)
deriving DecidableEq, Repr

/-- The state XMIProcessor.init computes for one xmi file: the sofa text,
the resolved plain-text source and the interval tree content. The md5
hashing itself stays opaque: the checksum of the document text enters as
the md5 argument and only equality with stored checksums matters. -/
structure XMIState where
  text : List Char
  plain_text_source : String
  itree : List (Int × Int × IvData)
deriving DecidableEq, Repr

/-- XMIProcessor.init of gt-xmi-to-wa.py (lines 59-70): select the
document-data records whose stored checksum equals the md5 of the text; on
a match take the first record's source and intervals, otherwise (after a
logged error, a side effect) fall back to the placeholder source and an
empty interval tree. -/
def initXMIState (document_data : List DocData) (md5 : String)
    (sofa : List Char) : XMIState :=
  match document_data.filter (fun d => d.plain_text_md5 == md5) with
  | d :: _ =>
    { text := sofa, plain_text_source := d.plain_text_source,
      itree := d.text_intervals }
  | [] =>
    { text := sofa, plain_text_source := "urn:placeholder", itree := [] }

/-- UIMA feature structure as the XMI path reads it: xmi id, optional begin
and end character offsets (absent on argument-link structures) and an
optional target feature structure. -/
inductive FeatureStructure where
  | mk : Nat → Option Int → Option Int → Option FeatureStructure → FeatureStructure

/-- The xmiID attribute. -/
def FeatureStructure.xmiID : FeatureStructure → Nat
  | .mk i _ _ _ => i

/-- The begin attribute (None when absent). -/
def FeatureStructure.begin : FeatureStructure → Option Int
  | .mk _ b _ _ => b

/-- The end attribute (None when absent). -/
def FeatureStructure.end_ : FeatureStructure → Option Int
  | .mk _ _ e _ => e

/-- The target attribute (None when absent). -/
def FeatureStructure.target : FeatureStructure → Option FeatureStructure
  | .mk _ _ _ t => t

/-- Python falsiness of the begin attribute as tested by the expression
not feature_structure begin: true for an absent value and for offset 0. -/
def pyFalsy : Option Int → Bool
  | none => true
  | some v => v == 0

/-- Python slicing l[a:b] on a character list for the nonnegative indices
the XMI path produces. -/
def pySliceChars (l : List Char) (a b : Nat) : List Char :=
  (l.drop a).take (b - a)

/-- Python str.replace of newline by space (single-character replace is a
pointwise map). -/
def pyReplaceNl (l : List Char) : List Char :=
  l.map (fun c => if c = '\n' then ' ' else c)

/-- Python s.rfind of a space over s[0:stop]: the highest index below stop
holding a space, or None standing for the -1 result. -/
def rfindSpaceBefore (l : List Char) (stop : Nat) : Option Nat :=
  match (l.take stop).reverse.findIdx? (fun c => c == ' ') with
  | some j => some ((l.take stop).length - 1 - j)
  | none => none

/-- XMIProcessor get_prefix (gt-xmi-to-wa.py lines 98-106): up to 40
characters before the annotation begin, left-stripped, newlines replaced by
spaces, cut after the last space below index 20 when one exists. -/
def get_prefix_of (text : List Char) (b : Int) : List Char :=
  let extended_prefix := pyReplaceNl (stripLeading
    (pySliceChars text (max 0 (b - 40)).toNat b.toNat))
  match rfindSpaceBefore extended_prefix 20 with
  | some i => extended_prefix.drop (i + 1)
  | none => extended_prefix

/-- XMIProcessor get_suffix (gt-xmi-to-wa.py lines 108-116): up to 40
characters after the annotation end, right-stripped, newlines replaced by
spaces, cut at the last space below index 20 when one exists. -/
def get_suffix_of (text : List Char) (e : Int) : List Char :=
  let extended_suffix := pyReplaceNl (stripTrailing
    (pySliceChars text e.toNat (min (text.length : Int) (e + 40)).toNat))
  match rfindSpaceBefore extended_suffix 20 with
  | some i => extended_suffix.take i
  | none => extended_suffix

/-- Interval-tree range query itree[begin:end] of the intervaltree package:
the stored intervals overlapping the queried range, an interval (a, b)
overlapping when a is below the range end and b above the range begin. -/
def itreeOverlap (itree : List (Int × Int × IvData)) (b e : Int) :
    List (Int × Int × IvData) :=
  itree.filter (fun iv => decide (iv.1 < e) && decide (b < iv.2.1))

/-- Comparison on intervals as Python sorted orders Interval objects: by
begin, then end (the data field is compared only on full ties, which do
not occur between distinct stored intervals). -/
def ivLE (x y : Int × Int × IvData) : Bool :=
  decide (x.1 < y.1) || (decide (x.1 = y.1) && decide (x.2.1 ≤ y.2.1))

/-- Stable insertion for the interval sort. -/
def insertIv (x : Int × Int × IvData) :
    List (Int × Int × IvData) → List (Int × Int × IvData)
  | [] => [x]
  | y :: ys => if ivLE y x then y :: insertIv x ys else x :: y :: ys

/-- Python sorted(list(overlapping_intervals)): stable ascending sort. -/
def sortIvs : List (Int × Int × IvData) → List (Int × Int × IvData)
  | [] => []
  | x :: xs => insertIv x (sortIvs xs)

/-- TextQuoteSelector content: the covered text, and the optional prefix
and suffix keys that are set only when nonempty (Python truthiness). -/
structure TextQuote where
  quoteExact : List Char
  quotePre : Option (List Char)
  quoteSuf : Option (List Char)
deriving DecidableEq, Repr

/-- Targets of one XMI web annotation: textBase is the always-present
target dict holding the TextQuoteSelector and the TextPositionSelector with
its start and end (this dict carries no type key); image is the Image
target addressing the cropped region; imageSelector the Image target with a
media-frags FragmentSelector region; canvas the Canvas target with an
ImageApiSelector region. -/
inductive XTarget where
  | textBase : String → TextQuote → Int → Int → XTarget
  | image : String → XTarget
  | imageSelector : String → String → XTarget
  | canvas : String → String → XTarget
deriving DecidableEq, Repr

/-- The web annotation dict assembled by XMIProcessor (context, generated
timestamp and wrapper constants omitted; the body dict is opaque here since
no claim inspects it). -/
structure XWebAnnotation where
  id : String
  body : String
  target : List XTarget
deriving DecidableEq, Repr

/-- Minimum of a nonempty integer list as Python min (0 default on the
empty list, which the code never passes). -/
def listMinInt : List Int → Int
  | [] => 0
  | x :: xs => xs.foldl min x

/-- Maximum of a nonempty integer list as Python max. -/
def listMaxInt : List Int → Int
  | [] => 0
  | x :: xs => xs.foldl max x

/-- XMIProcessor to_xywh (gt-xmi-to-wa.py lines 264-272): bounding box of
the polygon as min x, min y, width, height. -/
def xywh_of_points (coords : List (Int × Int)) : String :=
  let min_x := listMinInt (coords.map Prod.fst)
  let min_y := listMinInt (coords.map Prod.snd)
  let max_x := listMaxInt (coords.map Prod.fst)
  let max_y := listMaxInt (coords.map Prod.snd)
  toString min_x ++ "," ++ toString min_y ++ "," ++
    toString (max_x - min_x) ++ "," ++ toString (max_y - min_y)

/-- XMIProcessor image_target (gt-xmi-to-wa.py lines 232-237). -/
def xmi_image_target (iiif_base_uri xywh : String) : XTarget :=
  .image (iiif_base_uri ++ "/" ++ xywh ++ "/max/0/default.jpg")

/-- XMIProcessor image_selector_target (gt-xmi-to-wa.py lines 239-249). -/
def xmi_image_selector_target (iiif_base_uri xywh : String) : XTarget :=
  .imageSelector (iiif_base_uri ++ "/full/max/0/default.jpg") ("xywh=" ++ xywh)

/-- XMIProcessor canvas_target (gt-xmi-to-wa.py lines 251-262). -/
def xmi_canvas_target (canvas_source xywh : String) : XTarget :=
  .canvas canvas_source xywh

/-- The part of XMIProcessor as_web_annotation after the begin-falsy target
swap (gt-xmi-to-wa.py lines 122-169): build the TextQuoteSelector (prefix
and suffix keys only when nonempty) and TextPositionSelector over the
resolved feature structure, query the interval tree with its begin and end,
and append image, image-selector and canvas targets for every overlapping
interval in ascending order (the warning on multiple overlaps is a side
effect). -/
def wa_from_resolved (st : XMIState) (anno_id : String)
    (fs : FeatureStructure) (body : String) : XWebAnnotation :=
  let b := fs.begin.getD 0
  let e := fs.end_.getD 0
  let covered := pySliceChars st.text b.toNat e.toNat
  let pre := get_prefix_of st.text b
  let suf := get_suffix_of st.text e
  let text_quote_selector : TextQuote :=
    { quoteExact := covered,
      quotePre := if pre.isEmpty then none else some pre,
      quoteSuf := if suf.isEmpty then none else some suf }
  let ivTargets := (sortIvs (itreeOverlap st.itree b e)).flatMap
    (fun iv => [xmi_image_target iv.2.2.iiif_base_uri (xywh_of_points iv.2.2.coords),
                xmi_image_selector_target iv.2.2.iiif_base_uri (xywh_of_points iv.2.2.coords),
                xmi_canvas_target iv.2.2.canvas_id (xywh_of_points iv.2.2.coords)])
  { id := anno_id, body := body,
    target := XTarget.textBase st.plain_text_source text_quote_selector b e :: ivTargets }

/-- XMIProcessor as_web_annotation (gt-xmi-to-wa.py lines 118-169): the
annotation id comes from the original feature structure; a feature
structure with falsy begin is replaced by its target attribute before
anything else is computed; a missing target then makes the Python attribute
accesses raise, modelled as none. -/
def as_web_annotation (st : XMIState) (fs0 : FeatureStructure)
    (body : String) : Option XWebAnnotation :=
  match (if pyFalsy fs0.begin then fs0.target else some fs0) with
  | none => none
  | some fs =>
    some (wa_from_resolved st ("urn:globalise:annotation:" ++ toString fs0.xmiID) fs body)

/-- True when the (possibly absent) web annotation carries no Image and no
Canvas target. -/
def targetsTextOnly : Option XWebAnnotation → Bool
  | none => true
  | some wa => wa.target.all (fun t => match t with
      | .image _ => false
      | .imageSelector _ _ => false
      | .canvas _ _ => false
      | _ => true)

/-- C7: when no document-data record's stored checksum equals the md5 of
the processed text, the processor state falls back to the placeholder
plain-text source and an empty interval index, and every web annotation it
then produces carries only the text target (no Image and no Canvas
targets). -/
theorem C7_checksum_fallback (document_data : List DocData) (md5 : String)
    (sofa : List Char)
    (hnone : document_data.filter (fun d => d.plain_text_md5 == md5) = []) :
    (initXMIState document_data md5 sofa).plain_text_source = "urn:placeholder" ∧
    (initXMIState document_data md5 sofa).itree = [] ∧
    ∀ (fs : FeatureStructure) (body : String),
      targetsTextOnly ( as_web_annotation (initXMIState document_data md5 sofa) fs body) = true := by
  have hstate : initXMIState document_data md5 sofa =
      { text := sofa, plain_text_source := "urn:placeholder", itree := [] } := by
    rw [initXMIState, hnone]
  refine ⟨by rw [hstate], by rw [hstate], ?_⟩
  intro fs body
  rw [hstate, as_web_annotation]
  cases hsw : (if pyFalsy fs.begin then fs.target else some fs) with
  | none => rfl
  | some fs2 => rfl

/-- Document-data record for the C7 witness. -/
def c7doc : DocData :=
  { plain_text_md5 := "0a1b2c3d", plain_text_source := "urn:textrepo:v1",
    text_intervals := [(0, 8,
      { iiif_base_uri := "https://iiif.example/scan1",
        canvas_id := "urn:canvas:1",
        coords := [(0, 0), (10, 0), (10, 5), (0, 5)] })] }

/-- Feature structure for the C7 witness: a span annotation. -/
def c7fs : FeatureStructure := .mk 11 (some 3) (some 7) none

/-- Witness for C7: the fallback theorem applied to a document whose
checksum matches no stored record. -/
theorem C7_witness :
    (initXMIState [c7doc] "deadbeef" ("Go home.\n".data)).plain_text_source =
      "urn:placeholder" ∧
    (initXMIState [c7doc] "deadbeef" ("Go home.\n".data)).itree = [] ∧
    targetsTextOnly ( as_web_annotation
      (initXMIState [c7doc] "deadbeef" ("Go home.\n".data)) c7fs "body") = true := by
  have h := C7_checksum_fallback [c7doc] "deadbeef" ("Go home.\n".data) (by decide)
  exact ⟨h.1, h.2.1, h.2.2 c7fs "body"⟩

/-- C10: a feature structure whose begin attribute is falsy, which includes
both an absent begin and a legitimate span beginning at character offset 0,
is replaced by its target feature structure before the selectors and the
interval lookup are computed; the whole emitted annotation apart from the
id (taken from the original xmi id) is computed from the target structure. -/
theorem C10_falsy_begin_target_swap (st : XMIState) (fs t : FeatureStructure)
    (body : String) (hfalsy : pyFalsy fs.begin = true)
    (htarget : fs.target = some t) :
    pyFalsy (some 0) = true ∧
    as_web_annotation st fs body =
      some (wa_from_resolved st ("urn:globalise:annotation:" ++ toString fs.xmiID) t body) := by
  constructor
  · rfl
  · rw [ as_web_annotation, if_pos hfalsy, htarget]

/-- Target feature structure for the C10 witness, a span from 10 to 12. -/
def c10target : FeatureStructure := .mk 99 (some 10) (some 12) none

/-- Feature structure for the C10 witness: begins at offset 0 (falsy in
Python), ends at 5, and carries c10target. -/
def c10fs : FeatureStructure := .mk 7 (some 0) (some 5) (some c10target)

/-- Processor state for the C10 witness. -/
def c10st : XMIState :=
  { text := "0123456789abcdefghij".data, plain_text_source := "urn:src", itree := [] }

/-- The start and end of the TextPositionSelector of a target (0, 0 on the
other target kinds). -/
def xStartEnd : XTarget → Int × Int
  | .textBase _ _ s e => (s, e)
  | _ => (0, 0)

/-- Witness for C10: the swap theorem applied to a feature structure that
begins at offset 0; the emitted TextPositionSelector runs from 10 to 12,
the range of the target structure, not 0 to 5. -/
theorem C10_witness :
    (pyFalsy (some 0) = true ∧
      as_web_annotation c10st c10fs "b" =
        some (wa_from_resolved c10st
          ("urn:globalise:annotation:" ++ toString c10fs.xmiID) c10target "b")) ∧
    (( as_web_annotation c10st c10fs "b").map
      (fun wa => wa.target.map xStartEnd)) = some [(10, 12)] := by
  constructor
  · exact C10_falsy_begin_target_swap c10st c10fs c10target "b" (by decide) rfl
  · decide
